import Mathlib

/-!
# Verification of spyglass runtime context propagation and collector contracts

Shallow embedding of `src/spyglass/runtime/context.py` (ContextVar-based
trace/span context), plus spec-modelled components whose source files are
absent from the snapshot (`spyglass/runtime/ids.py`, the AsyncCollector's
bounded drop-oldest queue).
-/

namespace Spyglass

/-- The context state carried by the two module-level `ContextVar`s
`_TRACE_ID` and `_SPAN_ID` in `spyglass/runtime/context.py`.
`none` means "unset" (both variables are declared with `default=None`). -/
structure CtxState where
  trace_id : Option String
  span_id : Option String
deriving Repr, DecidableEq

/-- The state of a fresh context in which no activation has set a value:
both `ContextVar`s carry their declared default `None`. -/
def initial_ctx : CtxState := ⟨none, none⟩

/-- `get_trace_id()` — returns `_TRACE_ID.get()`. -/
def get_trace_id (st : CtxState) : Option String := st.trace_id

/-- `get_span_id()` — returns `_SPAN_ID.get()`. -/
def get_span_id (st : CtxState) : Option String := st.span_id

/-- `set_trace_id(value)` — `_TRACE_ID.set(value)`; returns the `Token`,
modelled as the value the variable held before the set. -/
def set_trace_id (value : Option String) (st : CtxState) :
    Option String × CtxState :=
  (st.trace_id, { st with trace_id := value })

/-- `set_span_id(value)` — `_SPAN_ID.set(value)`; returns the `Token`. -/
def set_span_id (value : Option String) (st : CtxState) :
    Option String × CtxState :=
  (st.span_id, { st with span_id := value })

/-- `reset_trace_id(token)` — `_TRACE_ID.reset(token)`: restores the value
captured by the token. -/
def reset_trace_id (token : Option String) (st : CtxState) : CtxState :=
  { st with trace_id := token }

/-- `reset_span_id(token)` — `_SPAN_ID.reset(token)`. -/
def reset_span_id (token : Option String) (st : CtxState) : CtxState :=
  { st with span_id := token }

/-- The body of `use_span` up to `yield`: `ttoken = stoken = None`; if
`trace_id is not None`, `ttoken = set_trace_id(trace_id)`; if
`span_id is not None`, `stoken = set_span_id(span_id)`.  Returns
`(ttoken, stoken, state-at-yield)`. -/
def use_span_enter (tid sid : Option String) (st : CtxState) :
    Option (Option String) × Option (Option String) × CtxState :=
  let tpair : Option (Option String) × CtxState :=
    match tid with
    | none => (none, st)
    | some t =>
      let (tok, st2) := set_trace_id (some t) st
      (some tok, st2)
  let spair : Option (Option String) × CtxState :=
    match sid with
    | none => (none, tpair.2)
    | some s =>
      let (tok, st2) := set_span_id (some s) tpair.2
      (some tok, st2)
  (tpair.1, spair.1, spair.2)

/-- The `finally` block of `use_span`: reset only what we set —
`if stoken is not None: reset_span_id(stoken)` then
`if ttoken is not None: reset_trace_id(ttoken)`. -/
def use_span_exit (ttoken stoken : Option (Option String)) (st : CtxState) :
    CtxState :=
  let st1 :=
    match stoken with
    | none => st
    | some tok => reset_span_id tok st
  match ttoken with
  | none => st1
  | some tok => reset_trace_id tok st1

/-- A whole `with use_span(tid, sid): body` scope.  The body transforms the
context and either completes normally (`none`) or raises an exception
(`some e`); the `finally` block runs `use_span_exit` on whichever state the
body left, on both exit paths, and the body's outcome propagates unchanged. -/
def use_span_run {ε : Type} (tid sid : Option String)
    (body : CtxState → CtxState × Option ε) (st : CtxState) :
    CtxState × Option ε :=
  let (ttoken, stoken, st1) := use_span_enter tid sid st
  let (st2, err) := body st1
  (use_span_exit ttoken stoken st2, err)

/-- A finite nesting of `use_span` activations released in LIFO order:
enter each activation in list order, then exit them innermost-first. -/
def use_span_nest : List (Option String × Option String) → CtxState → CtxState
  | [], st => st
  | (tid, sid) :: rest, st =>
    let (ttoken, stoken, st1) := use_span_enter tid sid st
    use_span_exit ttoken stoken (use_span_nest rest st1)

/-- An operation of the context-propagation public API, for stating that no
operation can fail. -/
inductive CtxOp where
  | op_get_trace
  | op_get_span
  | op_set_trace (v : Option String)
  | op_set_span (v : Option String)
  | op_reset_trace (token : Option String)
  | op_reset_span (token : Option String)
  | op_activate (tid sid : Option String)
deriving Repr, DecidableEq

/-- Interpreter of a context operation, with an `Except` result type so a
failure would be representable; each branch mirrors the corresponding Python
function, none of which contains a raise path (reset tokens are modelled as
the captured prior value, so every token in the model is a valid token). -/
def run_ctx_op : CtxOp → CtxState → Except String (Option String × CtxState)
  | .op_get_trace, st => .ok (get_trace_id st, st)
  | .op_get_span, st => .ok (get_span_id st, st)
  | .op_set_trace v, st =>
    let (tok, st2) := set_trace_id v st
    .ok (tok, st2)
  | .op_set_span v, st =>
    let (tok, st2) := set_span_id v st
    .ok (tok, st2)
  | .op_reset_trace tok, st => .ok (none, reset_trace_id tok st)
  | .op_reset_span tok, st => .ok (none, reset_span_id tok st)
  | .op_activate tid sid, st =>
    let (ttoken, stoken, st1) := use_span_enter tid sid st
    .ok (none, use_span_exit ttoken stoken st1)

/-- Lowercase hexadecimal digit character for a value below 16. -/
def hex_digit (n : Nat) : Char :=
  if n < 10 then Char.ofNat (48 + n) else Char.ofNat (87 + n)

/-- Fixed-width big-endian lowercase hexadecimal rendering: `width` digits
of `v` (most significant first). -/
def hex_render : Nat → Nat → List Char
  | 0, _ => []
  | width + 1, v => hex_render width (v / 16) ++ [hex_digit (v % 16)]

/-- The numeric value of a lowercase hexadecimal digit character. -/
def hex_value (c : Char) : Nat :=
  if c.toNat ≥ 97 then c.toNat - 87 else c.toNat - 48

/-- Parse a big-endian hexadecimal digit list back to a number. -/
def hex_parse (l : List Char) : Nat :=
  l.foldl (fun acc c => acc * 16 + hex_value c) 0

/-- Whether a character is a lowercase hexadecimal digit, i.e. lies in the
codepoint range of `0`..`9` or `a`..`f`. -/
def is_hex_lower (c : Char) : Bool :=
  (48 ≤ c.toNat && c.toNat ≤ 57) || (97 ≤ c.toNat && c.toNat ≤ 102)

/-- Modelled from the spec: `span_id` lives in `spyglass/runtime/ids.py`,
which is absent from the snapshot (it is only imported by
`spyglass/runtime/__init__.py` and exercised by `tests/test_runtime_ids.py`).
Spec contract: `new_span_id() -> string`, the fixed 16 lowercase-hex-digit
representation of a random 64-bit value that is never the all-zero value.
The randomness source is modelled as a `Nat` argument, reduced into the
nonzero 64-bit range. -/
def span_id (r : Nat) : String :=
  String.mk (hex_render 16 (r % (2 ^ 64 - 1) + 1))

/-- Modelled from the spec: the AsyncCollector's bounded queue
(`spyglass/core/async_collector.py` is absent from the snapshot; only the
examples under `examples/` construct it, with `queue_size`, `flush_interval`
and `batch_max`).  Spec contract: a ring buffer of capacity N; `enqueue`
never blocks, and beyond capacity it evicts the oldest unsent event
(drop-oldest) to make room.  Events are opaque here, so the slot type is a
parameter. -/
def enqueue_drop_oldest {α : Type} (cap : Nat) (q : List α) (e : α) :
    List α :=
  if q.length < cap then q ++ [e] else q.drop 1 ++ [e]

/-- A sequence of enqueues with no intervening flush. -/
def enqueue_all {α : Type} (cap : Nat) (es : List α) (q : List α) : List α :=
  es.foldl (enqueue_drop_oldest cap) q

/-- One action of a unit of work against its own context.  Per the
`contextvars`/asyncio semantics the code relies on (each task runs in its own
copy of the spawning context), a task's actions touch only its own
`CtxState`; a suspension point is any point between two actions, where the
scheduler may run the other task. -/
inductive TaskAct where
  | act_enter (tid sid : Option String)
  | act_exit
  | act_observe
deriving Repr, DecidableEq

/-- A running unit of work: its private context, its stack of pending
`use_span` tokens (innermost first), and the values it has observed via the
getters, in order. -/
structure TaskRun where
  ctx : CtxState
  toks : List (Option (Option String) × Option (Option String))
  obs : List (Option String × Option String)
deriving Repr, DecidableEq

/-- Execute one action of a task on its own state. -/
def task_step (act : TaskAct) (t : TaskRun) : TaskRun :=
  match act with
  | .act_enter tid sid =>
    let (ttoken, stoken, st1) := use_span_enter tid sid t.ctx
    { t with ctx := st1, toks := (ttoken, stoken) :: t.toks }
  | .act_exit =>
    match t.toks with
    | [] => t
    | (ttoken, stoken) :: rest =>
      { t with ctx := use_span_exit ttoken stoken t.ctx, toks := rest }
  | .act_observe =>
    { t with obs := t.obs ++ [(get_trace_id t.ctx, get_span_id t.ctx)] }

/-- Run a whole action list of one task. -/
def run_task (prog : List TaskAct) (t : TaskRun) : TaskRun :=
  prog.foldl (fun acc act => task_step act acc) t

/-- Two sibling tasks with their remaining programs. -/
structure TwoTasks where
  ta : TaskRun
  tb : TaskRun
  pa : List TaskAct
  pb : List TaskAct

/-- One scheduler decision: `true` runs the next action of task A (if any),
`false` the next action of task B. -/
def sched_step (choose_a : Bool) (s : TwoTasks) : TwoTasks :=
  if choose_a then
    match s.pa with
    | [] => s
    | act :: rest => { s with ta := task_step act s.ta, pa := rest }
  else
    match s.pb with
    | [] => s
    | act :: rest => { s with tb := task_step act s.tb, pb := rest }

/-- Run both tasks under an arbitrary interleaving: follow the scheduler's
decisions, then (as `asyncio.gather` guarantees completion) run whatever
actions remain. -/
def sched_run : List Bool → TwoTasks → TwoTasks
  | [], s =>
    { ta := run_task s.pa s.ta, tb := run_task s.pb s.tb, pa := [], pb := [] }
  | c :: rest, s => sched_run rest (sched_step c s)

/-- The program of a sibling worker: observe the spawn-time snapshot, enter
its own span, observe after a suspension point, exit. -/
def worker_prog (tid sid : String) : List TaskAct :=
  [.act_observe, .act_enter (some tid) (some sid), .act_observe, .act_exit]

/-- Spawn two sibling workers from a parent whose context is `st`: each
child task starts with a snapshot of the parent's frame at spawn time. -/
def spawn_two (st : CtxState) (ta sa tb sb : String) : TwoTasks :=
  { ta := ⟨st, [], []⟩, tb := ⟨st, [], []⟩,
    pa := worker_prog ta sa, pb := worker_prog tb sb }

/-- The body used to exercise `use_span_propagates_exception` at a concrete
input: it overwrites both fields and raises `7`. -/
def raising_body : CtxState → CtxState × Option Nat :=
  fun s => (⟨some "garbage", s.span_id⟩, some 7)

end Spyglass

namespace Spyglass

/-- Exiting with the tokens produced by entering on `st` restores `st`. -/
theorem use_span_exit_enter (tid sid : Option String) (st : CtxState) :
    use_span_exit (use_span_enter tid sid st).1
      (use_span_enter tid sid st).2.1 (use_span_enter tid sid st).2.2 = st := by
  cases tid <;> cases sid <;>
    simp [use_span_enter, use_span_exit, set_trace_id, set_span_id,
      reset_trace_id, reset_span_id]

/-- C1: on every exit path of a `use_span` scope (normal completion or an
exception in the body), a field whose argument was some value is restored to
its value from before the activation, while a field whose argument was `None`
is untouched by the activation itself: its value at the yield point is the
prior value, and the value after exit is whatever the body left. -/
theorem use_span_restores_exactly_set_fields {ε : Type} (st : CtxState)
    (tid sid : Option String) (body : CtxState → CtxState × Option ε) :
    (get_trace_id (use_span_run tid sid body st).1 =
      if tid.isSome then get_trace_id st
      else get_trace_id (body (use_span_enter tid sid st).2.2).1)
    ∧ (get_span_id (use_span_run tid sid body st).1 =
      if sid.isSome then get_span_id st
      else get_span_id (body (use_span_enter tid sid st).2.2).1)
    ∧ (get_trace_id (use_span_enter tid sid st).2.2 =
      if tid.isSome then tid else get_trace_id st)
    ∧ (get_span_id (use_span_enter tid sid st).2.2 =
      if sid.isSome then sid else get_span_id st) := by
  cases tid <;> cases sid <;>
    simp [use_span_run, use_span_enter, use_span_exit, set_trace_id,
      set_span_id, reset_trace_id, reset_span_id, get_trace_id, get_span_id]

/-- C2: while a `use_span` activation is held, `get_trace_id`/`get_span_id`
return the activated values for non-`None` arguments, and the value in effect
before the activation (the nearest enclosing activation's value) for an
argument left as `None`. -/
theorem use_span_active_values (st : CtxState) (tid sid : Option String) :
    (get_trace_id (use_span_enter tid sid st).2.2 =
      if tid.isSome then tid else get_trace_id st)
    ∧ (get_span_id (use_span_enter tid sid st).2.2 =
      if sid.isSome then sid else get_span_id st) := by
  cases tid <;> cases sid <;>
    simp [use_span_enter, set_trace_id, set_span_id, get_trace_id, get_span_id]

/-- C3: context activation is fully reversible — after any finite nesting of
`use_span` activations (arbitrary arguments, including `None`) is released in
LIFO order, the getters return their pre-activation values. -/
theorem use_span_nest_reversible (acts : List (Option String × Option String))
    (st : CtxState) :
    get_trace_id (use_span_nest acts st) = get_trace_id st
    ∧ get_span_id (use_span_nest acts st) = get_span_id st := by
  suffices h : use_span_nest acts st = st by rw [h]; exact ⟨rfl, rfl⟩
  induction acts generalizing st with
  | nil => rfl
  | cons a rest ih =>
    obtain ⟨tid, sid⟩ := a
    show use_span_exit (use_span_enter tid sid st).1
      (use_span_enter tid sid st).2.1
      (use_span_nest rest (use_span_enter tid sid st).2.2) = st
    rw [ih]
    exact use_span_exit_enter tid sid st

/-- C4: no context-propagation operation can fail: every operation of the
public API returns a value for every input and state, and on the fresh
context (no activation has set anything) the getters return the absent value
`none` rather than failing. -/
theorem ctx_ops_never_fail :
    (∀ (op : CtxOp) (st : CtxState),
      ∃ out, run_ctx_op op st = Except.ok out)
    ∧ get_trace_id initial_ctx = none
    ∧ get_span_id initial_ctx = none := by
  refine ⟨fun op st => ?_, rfl, rfl⟩
  cases op <;> exact ⟨_, rfl⟩

/-- C8: activating `use_span` with both arguments `None` is an identity on
the context: it sets nothing (both tokens are `None` and the state at yield
is unchanged), and running any body under it is the same as running the body
alone, so the getters agree with their prior values inside the scope and
after exit. -/
theorem use_span_none_none_identity {ε : Type} (st : CtxState)
    (body : CtxState → CtxState × Option ε) :
    use_span_enter none none st = (none, none, st)
    ∧ get_trace_id (use_span_enter none none st).2.2 = get_trace_id st
    ∧ get_span_id (use_span_enter none none st).2.2 = get_span_id st
    ∧ use_span_run none none body st = body st := by
  refine ⟨rfl, rfl, rfl, ?_⟩
  simp [use_span_run, use_span_enter, use_span_exit]

/-- C9: `use_span` never suppresses an exception raised in its body: the
same exception propagates out of the scope, and the fields set by the
activation have been restored to their prior values by the time it does. -/
theorem use_span_propagates_exception {ε : Type} (st : CtxState)
    (tid sid : Option String) (body : CtxState → CtxState × Option ε) (e : ε)
    (h : (body (use_span_enter tid sid st).2.2).2 = some e) :
    (use_span_run tid sid body st).2 = some e
    ∧ (tid.isSome → get_trace_id (use_span_run tid sid body st).1 =
        get_trace_id st)
    ∧ (sid.isSome → get_span_id (use_span_run tid sid body st).1 =
        get_span_id st) := by
  refine ⟨?_, ?_, ?_⟩
  · simpa [use_span_run] using h
  · intro ht
    obtain ⟨t, rfl⟩ := Option.isSome_iff_exists.mp ht
    cases sid <;>
      simp [use_span_run, use_span_enter, use_span_exit, set_trace_id,
        set_span_id, reset_trace_id, reset_span_id, get_trace_id]
  · intro hs
    obtain ⟨s, rfl⟩ := Option.isSome_iff_exists.mp hs
    cases tid <;>
      simp [use_span_run, use_span_enter, use_span_exit, set_trace_id,
        set_span_id, reset_trace_id, reset_span_id, get_span_id]

/-- Witness for C9 at a concrete input: a body that raises `7` inside
`use_span (some t1) (some s1)` on the fresh context propagates the same
exception and the fields are restored. -/
theorem use_span_propagates_exception_witness :
    (use_span_run (some "t1") (some "s1") raising_body initial_ctx).2 = some 7
    ∧ get_trace_id
        (use_span_run (some "t1") (some "s1") raising_body initial_ctx).1 =
        get_trace_id initial_ctx
    ∧ get_span_id
        (use_span_run (some "t1") (some "s1") raising_body initial_ctx).1 =
        get_span_id initial_ctx := by
  have h := use_span_propagates_exception initial_ctx (some "t1") (some "s1")
    raising_body 7 rfl
  exact ⟨h.1, h.2.1 rfl, h.2.2 rfl⟩

/-- A task whose state is disjoint from its sibling's computes the same
result under every interleaving as it does running alone. -/
theorem sched_run_no_interference (sched : List Bool) (s : TwoTasks) :
    sched_run sched s =
      { ta := run_task s.pa s.ta, tb := run_task s.pb s.tb,
        pa := [], pb := [] } := by
  induction sched generalizing s with
  | nil => rfl
  | cons c rest ih =>
    show sched_run rest (sched_step c s) = _
    rw [ih]
    cases c with
    | true =>
      cases hpa : s.pa with
      | nil => simp [sched_step, hpa]
      | cons act tail => simp [sched_step, hpa, run_task]
    | false =>
      cases hpb : s.pb with
      | nil => simp [sched_step, hpb]
      | cons act tail => simp [sched_step, hpb, run_task]

/-- C5: under every interleaving, each of two concurrently executing sibling
workers first observes the spawn-time snapshot of the parent frame and then,
after a suspension point inside its own activation, observes exactly its own
activated trace/span ids — never its sibling's. -/
theorem siblings_never_leak (sched : List Bool) (st : CtxState)
    (ta sa tb sb : String) :
    (sched_run sched (spawn_two st ta sa tb sb)).ta.obs =
      [(get_trace_id st, get_span_id st), (some ta, some sa)]
    ∧ (sched_run sched (spawn_two st ta sa tb sb)).tb.obs =
      [(get_trace_id st, get_span_id st), (some tb, some sb)] := by
  rw [sched_run_no_interference]
  constructor <;>
    simp [spawn_two, worker_prog, run_task, task_step, use_span_enter,
      use_span_exit, set_trace_id, set_span_id, reset_trace_id,
      reset_span_id, get_trace_id, get_span_id]

theorem hex_render_length (width v : Nat) :
    (hex_render width v).length = width := by
  induction width generalizing v with
  | zero => rfl
  | succ w ih => simp [hex_render, ih]

theorem hex_digit_mem (n : Nat) (h : n < 16) :
    is_hex_lower (hex_digit n) = true := by
  interval_cases n <;> decide

theorem hex_render_mem (width v : Nat) (c : Char)
    (hc : c ∈ hex_render width v) : is_hex_lower c = true := by
  induction width generalizing v with
  | zero => cases hc
  | succ w ih =>
    simp only [hex_render, List.mem_append, List.mem_singleton] at hc
    rcases hc with hc | hc
    · exact ih _ hc
    · exact hc ▸ hex_digit_mem _ (Nat.mod_lt _ (by omega))

theorem hex_value_digit (n : Nat) (h : n < 16) :
    hex_value (hex_digit n) = n := by
  interval_cases n <;> decide

theorem hex_parse_append (l : List Char) (c : Char) :
    hex_parse (l ++ [c]) = hex_parse l * 16 + hex_value c := by
  simp [hex_parse, List.foldl_append]

theorem hex_parse_render (width v : Nat) :
    hex_parse (hex_render width v) = v % 16 ^ width := by
  induction width generalizing v with
  | zero => simp [hex_parse, hex_render, Nat.mod_one]
  | succ w ih =>
    rw [hex_render, hex_parse_append, ih,
      hex_value_digit _ (Nat.mod_lt _ (by omega))]
    rw [Nat.pow_succ, Nat.mul_comm (16 ^ w) 16, Nat.mod_mul]
    omega

/-- C6: every generated span id is a string of exactly 16 characters, all
lowercase hexadecimal digits, whose parsed value is a 64-bit quantity that is
never zero (so the string is never the all-zero id). -/
theorem span_id_format (r : Nat) :
    (span_id r).length = 16
    ∧ (∀ c ∈ (span_id r).toList, is_hex_lower c = true)
    ∧ hex_parse (span_id r).toList < 2 ^ 64
    ∧ hex_parse (span_id r).toList ≠ 0 := by
  have h1 : r % (2 ^ 64 - 1) < 2 ^ 64 - 1 := Nat.mod_lt _ (by norm_num)
  have hv : r % (2 ^ 64 - 1) + 1 < 2 ^ 64 := by
    have h2 : (2 : Nat) ^ 64 - 1 + 1 = 2 ^ 64 := by norm_num
    omega
  have hlist : (span_id r).toList = hex_render 16 (r % (2 ^ 64 - 1) + 1) := rfl
  have hparse : hex_parse (span_id r).toList = r % (2 ^ 64 - 1) + 1 := by
    rw [hlist, hex_parse_render]
    refine Nat.mod_eq_of_lt ?_
    rw [show (16 : Nat) ^ 16 = 2 ^ 64 by norm_num]
    exact hv
  refine ⟨?_, ?_, ?_, ?_⟩
  · show (String.mk (hex_render 16 (r % (2 ^ 64 - 1) + 1))).length = 16
    simp [String.length, hex_render_length]
  · intro c hc
    rw [hlist] at hc
    exact hex_render_mem _ _ _ hc
  · rw [hparse]; exact hv
  · rw [hparse]; omega

/-- One drop-oldest enqueue keeps the queue a suffix of the enqueued stream
and within capacity. -/
theorem enqueue_drop_oldest_spec {α : Type} (cap : Nat) (q : List α) (e : α)
    (hcap : 0 < cap) (hq : q.length ≤ cap) :
    enqueue_drop_oldest cap q e = (q ++ [e]).drop (q.length + 1 - cap)
    ∧ (enqueue_drop_oldest cap q e).length ≤ cap := by
  unfold enqueue_drop_oldest
  by_cases h : q.length < cap
  · rw [if_pos h]
    have h0 : q.length + 1 - cap = 0 := by omega
    simp [h0]
    omega
  · rw [if_neg h]
    have hlen : q.length = cap := by omega
    have h1 : q.length + 1 - cap = 1 := by omega
    rw [h1, List.drop_append_of_le_length (by omega)]
    refine ⟨rfl, ?_⟩
    simp [List.length_drop]
    omega

/-- After any sequence of enqueues the queue is exactly the capacity-sized
suffix of everything ever enqueued. -/
theorem enqueue_all_spec {α : Type} (cap : Nat) (es q : List α)
    (hcap : 0 < cap) (hq : q.length ≤ cap) :
    enqueue_all cap es q = (q ++ es).drop (q.length + es.length - cap) := by
  induction es generalizing q with
  | nil =>
    have h0 : q.length + ([] : List α).length - cap = 0 := by
      rw [List.length_nil]
      omega
    rw [h0, List.drop_zero, List.append_nil]
    rfl
  | cons e es ih =>
    have hspec := enqueue_drop_oldest_spec cap q e hcap hq
    show enqueue_all cap es (enqueue_drop_oldest cap q e) = _
    rw [ih (enqueue_drop_oldest cap q e) hspec.2, hspec.1]
    by_cases h : q.length < cap
    · have h0 : q.length + 1 - cap = 0 := by omega
      rw [h0, List.drop_zero]
      have hidx : (q ++ [e]).length + es.length - cap =
          q.length + (e :: es).length - cap := by
        rw [List.length_append, List.length_singleton, List.length_cons]
        omega
      rw [List.append_assoc, List.singleton_append, hidx]
    · have hlen : q.length = cap := by omega
      have h1 : q.length + 1 - cap = 1 := by omega
      have hinner : List.drop 1 (q ++ [e]) = List.drop 1 q ++ [e] :=
        List.drop_append_of_le_length (by omega)
      rw [h1, hinner]
      have hL1 : (List.drop 1 q ++ [e]).length = cap := by
        rw [List.length_append, List.length_drop, List.length_singleton]
        omega
      have hiL : (List.drop 1 q ++ [e]).length + es.length - cap =
          es.length := by
        rw [hL1]
        omega
      have hiR : q.length + (e :: es).length - cap = es.length + 1 := by
        rw [List.length_cons]
        omega
      rw [hiL, hiR, List.append_assoc, List.singleton_append]
      have hq1 : List.drop 1 (q ++ e :: es) = List.drop 1 q ++ e :: es :=
        List.drop_append_of_le_length (by omega)
      have hdd : List.drop es.length (List.drop 1 (q ++ e :: es)) =
          List.drop (es.length + 1) (q ++ e :: es) := by
        rw [List.drop_drop, Nat.add_comm]
      rw [← hdd, hq1]

/-- C7: with a positive capacity and a queue within capacity, a drop-oldest
enqueue never exceeds capacity, and after any sequence of enqueues with no
intervening flush the queue holds exactly the capacity-sized suffix of the
enqueued stream — for M > N enqueues, the N most-recently-enqueued events. -/
theorem collector_bounded_drop_oldest {α : Type} (cap : Nat) (q es : List α)
    (hcap : 0 < cap) (hq : q.length ≤ cap) :
    (∀ e, (enqueue_drop_oldest cap q e).length ≤ cap)
    ∧ enqueue_all cap es q = (q ++ es).drop (q.length + es.length - cap)
    ∧ (enqueue_all cap es q).length = min cap (q.length + es.length) := by
  refine ⟨fun e => (enqueue_drop_oldest_spec cap q e hcap hq).2,
    enqueue_all_spec cap es q hcap hq, ?_⟩
  rw [enqueue_all_spec cap es q hcap hq, List.length_drop,
    List.length_append]
  omega

/-- Witness for C7 at a concrete input: capacity 2, five enqueues into an
empty queue; exactly the two most recent events survive. -/
theorem collector_bounded_drop_oldest_witness :
    (0 : Nat) < 2 ∧ ([] : List Nat).length ≤ 2
    ∧ enqueue_all 2 [1, 2, 3, 4, 5] ([] : List Nat) = [4, 5] := by
  have h := collector_bounded_drop_oldest 2 ([] : List Nat) [1, 2, 3, 4, 5]
    (by decide) (by decide)
  refine ⟨by decide, by decide, ?_⟩
  rw [h.2.1]
  decide

/-- C10: the trace-id and span-id slots are independent: setting or
resetting one slot leaves the getter of the other slot unchanged. -/
theorem ctx_slots_independent (st : CtxState) (v token : Option String) :
    get_span_id (set_trace_id v st).2 = get_span_id st
    ∧ get_span_id (reset_trace_id token st) = get_span_id st
    ∧ get_trace_id (set_span_id v st).2 = get_trace_id st
    ∧ get_trace_id (reset_span_id token st) = get_trace_id st :=
  ⟨rfl, rfl, rfl, rfl⟩

end Spyglass
